import Mathlib

/-
Shallow embedding of the prices-timeline repository core:
  * src/utils/date_parser.py        (CzechDateParser.parse_date_range, parse_validity_text)
  * src/src_crawler/main.py         (DataProcessor: _parse_price, _parse_discount,
                                     _parse_store_count, process_offer, process_crawl_result)
  * src/src_crawler/utils/text_parser.py (parse_kupi_offers_from_text)

Modelling conventions:
  * Python strings are Lean `String` or `List Char`; Python regular expressions are
    hand-compiled into character scanners with the same leftmost-match, greedy/lazy
    and backtracking behaviour as the `re` module on the character repertoire the
    code actually uses (ASCII plus the Czech letters of its fixed vocabulary).
  * Python `float` values are modelled as exact rationals; `int` as Nat.
  * `datetime` values carry only the (year, month, day) fields the code reads;
    `datetime(year, month, day)` raising ValueError is modelled by a validity test,
    and `datetime.MINYEAR/MAXYEAR` bounds (1..9999) are included.
  * Code that can raise is embedded in `Except String`; ambient wall-clock reads
    (`datetime.now()`) are threaded as explicit arguments, which is exactly what a
    shallow embedding of impure code requires.
  * Python dict `.get` conflates an absent key with a key stored as None wherever the
    code only tests truthiness afterwards; such fields are modelled as `Option`.
-/

/-! ## Characters, substrings, normalisation -/

/-- Python `\s` whitespace class (ASCII part, which is all the inputs use). -/
def isPySpace (c : Char) : Bool :=
  c = ' ' || c = '\t' || c = '\n' || c = '\r' || c = '\x0b' || c = '\x0c'

/-- Python `str.lower` restricted to ASCII letters and the Czech uppercase letters
that occur in the vocabulary of this code base. -/
def pyLower (c : Char) : Char :=
  if 'A' ≤ c ∧ c ≤ 'Z' then Char.ofNat (c.toNat + 32)
  else if c = 'Á' then 'á' else if c = 'Č' then 'č' else if c = 'Ď' then 'ď'
  else if c = 'É' then 'é' else if c = 'Ě' then 'ě' else if c = 'Í' then 'í'
  else if c = 'Ň' then 'ň' else if c = 'Ó' then 'ó' else if c = 'Ř' then 'ř'
  else if c = 'Š' then 'š' else if c = 'Ť' then 'ť' else if c = 'Ú' then 'ú'
  else if c = 'Ů' then 'ů' else if c = 'Ý' then 'ý' else if c = 'Ž' then 'ž'
  else c

/-- Python `str.strip`: drop whitespace from both ends. -/
def stripChars (l : List Char) : List Char :=
  ((l.dropWhile isPySpace).reverse.dropWhile isPySpace).reverse

/-- Python `str.strip` on `String`. -/
def pyStrip (s : String) : String := String.mk (stripChars s.data)

/-- Python substring test `needle in haystack`. -/
def containsSub (n : List Char) (h : List Char) : Bool :=
  match h with
  | [] => n.isEmpty
  | _ :: t => n.isPrefixOf h || containsSub n t

/-- The normalisation `text.lower().strip()` performed by `parse_date_range`. -/
def normalizeText (s : String) : List Char := stripChars (s.data.map pyLower)

/-- Digits of a numeral, most significant first, to a Nat (Python `int`). -/
def natOfDigits (l : List Char) : Nat :=
  l.foldl (fun a c => 10 * a + (c.toNat - 48)) 0

/-! ## Calendar model (Python `datetime` restricted to its date fields) -/

structure Date where
  year : Nat
  month : Nat
  day : Nat
deriving DecidableEq

def isLeapYear (y : Nat) : Bool :=
  y % 4 == 0 && (y % 100 != 0 || y % 400 == 0)

def daysInMonth (y m : Nat) : Nat :=
  if m = 2 then (if isLeapYear y then 29 else 28)
  else if m = 4 ∨ m = 6 ∨ m = 9 ∨ m = 11 then 30
  else 31

/-- Whether `datetime(y, m, d)` succeeds (no ValueError): month 1..12, day within
the month, and year within `datetime.MINYEAR .. datetime.MAXYEAR`. -/
def validYMD (y m d : Nat) : Bool :=
  decide (1 ≤ y ∧ y ≤ 9999 ∧ 1 ≤ m ∧ m ≤ 12 ∧ 1 ≤ d ∧ d ≤ daysInMonth y m)

def validDate (dt : Date) : Bool := validYMD dt.year dt.month dt.day

/-- Days since the civil epoch 0000-03-01 (Hinnant `days_from_civil` on Nat). -/
def toRataDie (dt : Date) : Nat :=
  let y := if dt.month ≤ 2 then dt.year - 1 else dt.year
  let era := y / 400
  let yoe := y % 400
  let mp := if 2 < dt.month then dt.month - 3 else dt.month + 9
  let doy := (153 * mp + 2) / 5 + dt.day - 1
  let doe := yoe * 365 + yoe / 4 - yoe / 100 + doy
  era * 146097 + doe

/-- Inverse of `toRataDie` (Hinnant `civil_from_days`). -/
def fromRataDie (g : Nat) : Date :=
  let era := g / 146097
  let doe := g % 146097
  let yoe := (doe - doe / 1460 + doe / 36524 - doe / 146096) / 365
  let y := yoe + era * 400
  let doy := doe - (365 * yoe + yoe / 4 - yoe / 100)
  let mp := (5 * doy + 2) / 153
  let d := doy - (153 * mp + 2) / 5 + 1
  let m := if mp < 10 then mp + 3 else mp - 9
  if m ≤ 2 then ⟨y + 1, m, d⟩ else ⟨y, m, d⟩

/-- Python `current_date + timedelta(days=k)`. -/
def addDays (dt : Date) (k : Int) : Date :=
  fromRataDie (Int.toNat (Int.ofNat (toRataDie dt) + k))

/-- Two-digit zero padding, as in `strftime` `%m` / `%d`. -/
def pad2 (n : Nat) : String := if n < 10 then "0" ++ toString n else toString n

/-- Four-digit zero padding, as in CPython `strftime` `%Y`. -/
def pad4 (n : Nat) : String :=
  if n < 10 then "000" ++ toString n
  else if n < 100 then "00" ++ toString n
  else if n < 1000 then "0" ++ toString n
  else toString n

/-- `date.strftime("%Y-%m-%d")`. -/
def fmtYMD (y m d : Nat) : String := pad4 y ++ "-" ++ pad2 m ++ "-" ++ pad2 d

def fmtDate (dt : Date) : String := fmtYMD dt.year dt.month dt.day

/-! ## CzechDateParser (src/utils/date_parser.py) -/

/-- The `current_date or datetime.now()` default in `CzechDateParser.__init__`:
a supplied reference date wins (a datetime is always truthy), otherwise the
ambient clock value is used. -/
def czechParserInit (supplied : Option Date) (now : Date) : Date :=
  supplied.getD now

/-- The `RELATIVE_DATES` scan: iterate the dict in insertion order, first keyword
contained in the text wins, returning its day offset. -/
def findRelative (t : List Char) : Option Int :=
  if containsSub "dnes".data t then some 0
  else if containsSub "zítra".data t then some 1
  else if containsSub "pozítří".data t then some 2
  else if containsSub "včera".data t then some (-1)
  else if containsSub "předevčírem".data t then some (-2)
  else none

/-- The directional test of the relative-date branch:
`'končí' in text or 'do' in text`. -/
def hasUntilRel (t : List Char) : Bool :=
  containsSub "končí".data t || containsSub "do".data t

/-- `any(word in text for word in ['do', 'končí', 'platí do'])`. -/
def hasUntilOne (t : List Char) : Bool :=
  containsSub "do".data t || containsSub "končí".data t || containsSub "platí do".data t

/-- `any(word in text for word in ['od', 'začíná', 'platí od'])`. -/
def hasFromOne (t : List Char) : Bool :=
  containsSub "od".data t || containsSub "začíná".data t || containsSub "platí od".data t

/-- One `day.month[.year]` token produced by the regex
`(\d{1,2})\.\s*(\d{1,2})\.(?:\s*(\d{4}))?`. -/
structure DateToken where
  day : Nat
  month : Nat
  yr : Option Nat
deriving DecidableEq

/-- Scanner for `(\d{1,2})\.`: one or two digits (greedy, with the backtracking the
regex engine performs when the dot does not follow two digits) then a literal dot.
Returns the numeric value and the rest of the input after the dot. -/
def twoDigitDot : List Char → Option (Nat × List Char)
  | c1 :: c2 :: c3 :: r =>
    if c1.isDigit then
      if c2.isDigit then
        if c3 = '.' then some (10 * (c1.toNat - 48) + (c2.toNat - 48), r) else none
      else if c2 = '.' then some (c1.toNat - 48, c3 :: r)
      else none
    else none
  | [c1, c2] => if c1.isDigit && c2 = '.' then some (c1.toNat - 48, []) else none
  | _ => none

/-- Anchored match of `(\d{1,2})\.\s*(\d{1,2})\.(?:\s*(\d{4}))?` at the head of the
input: day part, optional whitespace, month part, then an optional greedy
`\s*(\d{4})` year group that matches only when four consecutive digits follow. -/
def dateMatchAt (s : List Char) : Option (DateToken × List Char) :=
  match twoDigitDot s with
  | none => none
  | some (dd, r1) =>
    match twoDigitDot (r1.dropWhile isPySpace) with
    | none => none
    | some (mm, r3) =>
      match r3.dropWhile isPySpace with
      | y1 :: y2 :: y3 :: y4 :: r5 =>
        if y1.isDigit && y2.isDigit && y3.isDigit && y4.isDigit then
          some (⟨dd, mm, some (natOfDigits [y1, y2, y3, y4])⟩, r5)
        else some (⟨dd, mm, none⟩, r3)
      | _ => some (⟨dd, mm, none⟩, r3)

/-- Generic `re.finditer` loop: emit the leftmost anchored match, continue after it,
otherwise advance one character. Fuel is the input length (every match here
consumes at least one character). -/
def finditerAux {α : Type} (step : List Char → Option (α × List Char)) :
    Nat → List Char → List α
  | 0, _ => []
  | _, [] => []
  | Nat.succ n, c :: t =>
    match step (c :: t) with
    | some (a, rest) => a :: finditerAux step n rest
    | none => finditerAux step n t

/-- All date tokens of the text, in order (`re.finditer(date_pattern, text)`). -/
def dateFinditer (t : List Char) : List DateToken :=
  finditerAux dateMatchAt t.length t

/-- The year the loop body assumes for a token: the explicit year group if present,
else the reference year, plus one on the November/December rollover condition
`month < self.current_date.month and self.current_date.month >= 11`. -/
def adjYear (cur : Date) (tok : DateToken) : Nat :=
  if tok.month < cur.month ∧ 11 ≤ cur.month then tok.yr.getD cur.year + 1
  else tok.yr.getD cur.year

/-- Loop body for one token: `datetime(year, month, day)` then `strftime`; a
ValueError (invalid calendar date) yields no entry (`continue`). -/
def resolveToken (cur : Date) (tok : DateToken) : Option String :=
  if validYMD (adjYear cur tok) tok.month tok.day then
    some (fmtYMD (adjYear cur tok) tok.month tok.day)
  else none

/-- The `dates` list accumulated from a token list. -/
def extractFromTokens (cur : Date) (ts : List DateToken) : List String :=
  ts.filterMap (resolveToken cur)

/-- The `dates` list accumulated over the whole text. -/
def extractDates (cur : Date) (t : List Char) : List String :=
  extractFromTokens cur (dateFinditer t)

/-- `CzechDateParser.parse_date_range`. -/
def parse_date_range (cur : Date) (text : String) : Option String × Option String :=
  if text = "" then (none, none)
  else
    let t := normalizeText text
    match findRelative t with
    | some k =>
      let ds := fmtDate (addDays cur k)
      if hasUntilRel t then (none, some ds) else (some ds, none)
    | none =>
      match extractDates cur t with
      | [] => (none, none)
      | [d] =>
        if hasUntilOne t then (none, some d)
        else if hasFromOne t then (some d, none)
        else (none, some d)
      | d1 :: d2 :: rest => (some d1, some ((d2 :: rest).getLastD d1))

structure ValidityResult where
  start_date : Option String
  end_date : Option String
  text : Option String
deriving DecidableEq

/-- `CzechDateParser.parse_validity_text`. -/
def parse_validity_text (cur : Date) (t : String) : ValidityResult :=
  let r := parse_date_range cur t
  { start_date := r.1, end_date := r.2,
    text := if t = "" then none else some (pyStrip t) }

/-! ## DataProcessor sub-parsers (src/src_crawler/main.py) -/

structure PriceResult where
  text : String
  value : Option ℚ
  currency : Option String
  unit : Option String
deriving DecidableEq

structure DiscountResult where
  text : String
  percentage : Option Nat
deriving DecidableEq

/-- Python `float` on the strings this code feeds it (digits and at most one dot,
possibly on either side of it); `none` models a ValueError. -/
def pyFloat (cs : List Char) : Option ℚ :=
  let ip := cs.takeWhile Char.isDigit
  match cs.dropWhile Char.isDigit with
  | [] => if ip = [] then none else some (natOfDigits ip : ℚ)
  | '.' :: fr =>
    if fr.all Char.isDigit ∧ (ip ≠ [] ∨ fr ≠ []) then
      some ((natOfDigits ip : ℚ) + (natOfDigits fr : ℚ) / ((10 : ℚ) ^ fr.length))
    else none
  | _ => none

/-- Leftmost match of `(\d+[,.]?\d*)`: at the first digit, greedily take digits, an
optional comma/dot separator, then more digits (no backtracking is possible since
nothing follows the group). Returns the captured text. -/
def findNumber : List Char → Option (List Char)
  | [] => none
  | c :: r =>
    if c.isDigit then
      let ds := (c :: r).takeWhile Char.isDigit
      some (match (c :: r).dropWhile Char.isDigit with
            | s :: r3 => if s = ',' ∨ s = '.' then ds ++ s :: r3.takeWhile Char.isDigit else ds
            | [] => ds)
    else findNumber r

/-- Lazy `.+?` body for the unit pattern: the shortest nonempty run of non-newline
characters whose successor is whitespace or end of input. -/
def lazyDot : List Char → Option (List Char)
  | [] => none
  | c :: r =>
    if c = '\n' then none
    else match r with
      | [] => some [c]
      | d :: _ => if isPySpace d then some [c] else (lazyDot r).map (fun g => c :: g)

/-- Backtracking over the greedy `\s*` of `/\s*(.+?)(?:\s|$)`: try the longest
whitespace split first, then push whitespace characters back one at a time.
`wsRev` is the still-consumed whitespace, reversed. -/
def wsBacktrack (wsRev : List Char) (r : List Char) : Option (List Char) :=
  match lazyDot r with
  | some p => some p
  | none =>
    match wsRev with
    | [] => none
    | c :: wsRev' => wsBacktrack wsRev' (c :: r)

/-- Leftmost match of `/\s*(.+?)(?:\s|$)`: at each '/', consume whitespace
greedily and run the lazy group; on failure resume the search at the next
character. Returns the captured group. -/
def findUnit : List Char → Option (List Char)
  | [] => none
  | c :: r =>
    if c = '/' then
      match wsBacktrack (r.takeWhile isPySpace).reverse (r.dropWhile isPySpace) with
      | some p => some p
      | none => findUnit r
    else findUnit r

/-- `DataProcessor._parse_price`. -/
def _parse_price (s : String) : Option PriceResult :=
  if s = "" then none
  else some
    { text := s,
      value := (findNumber s.data).bind
        (fun g => pyFloat (g.map (fun c => if c = ',' then '.' else c))),
      currency :=
        if containsSub "Kč".data s.data || containsSub "CZK".data s.data
        then some "CZK" else none,
      unit := (findUnit s.data).map (fun g => String.mk (stripChars g)) }

/-- Leftmost match of `(\d+)\s*%`: at each position starting with a digit take the
greedy digit run, optional whitespace, then require '%'; shrinking the digit run
cannot help (the next character would be a digit, not '%'), so on failure the
search advances one character. -/
def findPercent : List Char → Option Nat
  | [] => none
  | c :: r =>
    if c.isDigit then
      let ds := (c :: r).takeWhile Char.isDigit
      match ((c :: r).dropWhile Char.isDigit).dropWhile isPySpace with
      | '%' :: _ => some (natOfDigits ds)
      | _ => findPercent r
    else findPercent r

/-- Leftmost match of `(\d+)`: the first maximal digit run. -/
def findFirstInt : List Char → Option Nat
  | [] => none
  | c :: r =>
    if c.isDigit then some (natOfDigits ((c :: r).takeWhile Char.isDigit))
    else findFirstInt r

/-- `DataProcessor._parse_discount`. -/
def _parse_discount (s : String) : Option DiscountResult :=
  if s = "" then none else some { text := s, percentage := findPercent s.data }

/-- `DataProcessor._parse_store_count`. -/
def _parse_store_count (s : String) : Option Nat :=
  if s = "" then none else findFirstInt s.data

/-! ## Text fallback parser (src/src_crawler/utils/text_parser.py) -/

/-- One offer dict produced by `parse_kupi_offers_from_text`. -/
structure TOffer where
  retailer_name : String
  store_count : Option Nat
  price_text : String
  price_value : Option ℚ
  price_unit : String
  discount_percentage : Option Nat
  validity_text : String
deriving DecidableEq

/-- The four captured groups of one composite retailer match. -/
structure RawMatch where
  store_count : List Char
  price : List Char
  discount : List Char
  validity : List Char
deriving DecidableEq

/-- Consume a literal, or fail. -/
def eatLit (w : List Char) (s : List Char) : Option (List Char) :=
  if w.isPrefixOf s then some (s.drop w.length) else none

/-- Anchored `([\d,]+)\s*Kč\s*/\s*\d+\s*kg` (the continuation of the first lazy
gap); every greedy piece is followed by a disjoint character class, so scanning is
deterministic. -/
def part2Price (t : List Char) : Option (List Char × List Char) :=
  let p := t.takeWhile (fun c => c.isDigit || c = ',')
  if p = [] then none
  else
    match eatLit "Kč".data ((t.dropWhile (fun c => c.isDigit || c = ',')).dropWhile isPySpace) with
    | none => none
    | some t3 =>
      match t3.dropWhile isPySpace with
      | '/' :: t5 =>
        let t6 := t5.dropWhile isPySpace
        if t6.takeWhile Char.isDigit = [] then none
        else
          match eatLit "kg".data ((t6.dropWhile Char.isDigit).dropWhile isPySpace) with
          | none => none
          | some t9 => some (p, t9)
      | _ => none

/-- Anchored `–(\d+)\s*%` (the continuation of the second lazy gap). -/
def part3Disc (t : List Char) : Option (List Char × List Char) :=
  match t with
  | '–' :: t1 =>
    let ds := t1.takeWhile Char.isDigit
    if ds = [] then none
    else
      match (t1.dropWhile Char.isDigit).dropWhile isPySpace with
      | '%' :: t3 => some (ds, t3)
      | _ => none
  | _ => none

/-- One alternative `kw[^PV]+` of the validity group: the keyword followed by a
greedy nonempty run of characters other than 'P' and 'V' (a negated class also
matches newlines). The captured group includes the keyword. -/
def tryValidKw (w : String) (t : List Char) : Option (List Char × List Char) :=
  match eatLit w.data t with
  | none => none
  | some t1 =>
    let body := t1.takeWhile (fun c => c != 'P' && c != 'V')
    if body = [] then none
    else some (w.data ++ body, t1.dropWhile (fun c => c != 'P' && c != 'V'))

/-- Anchored `(platí[^PV]+|zítra[^PV]+|čt[^PV]+|pá[^PV]+)`, alternatives tried in
order. -/
def part4Validity (t : List Char) : Option (List Char × List Char) :=
  match tryValidKw "platí" t with
  | some r => some r
  | none =>
    match tryValidKw "zítra" t with
    | some r => some r
    | none =>
      match tryValidKw "čt" t with
      | some r => some r
      | none => tryValidKw "pá" t

/-- A lazy `.*?` gap under `re.DOTALL`: try the continuation at the current
position, then skip one arbitrary character at a time. Fuel is the input length,
so every position including end of input is tried once. -/
def lazyFindAux {α : Type} (f : List Char → Option α) : Nat → List Char → Option α
  | 0, s => f s
  | Nat.succ n, s =>
    match f s with
    | some a => some a
    | none =>
      match s with
      | [] => none
      | _ :: t => lazyFindAux f n t

/-- Anchored match of the composite retailer pattern
`{retailer}(\d+)\s*nejbližších\s*poboček.*?([\d,]+)\s*Kč\s*/\s*\d+\s*kg.*?–(\d+)\s*%.*?(platí[^PV]+|zítra[^PV]+|čt[^PV]+|pá[^PV]+)`
compiled with `re.DOTALL`. Each fixed part matches at a given position in at most
one way (every greedy piece is followed by a disjoint character class), and each
`.*?` gap is unbounded, so a continuation that fails when started earlier also
fails when started later; hence committing to the earliest match of each part, as
done here, finds exactly the match the backtracking engine finds. -/
def compMatchAt (r : String) (s : List Char) : Option (RawMatch × List Char) :=
  match eatLit r.data s with
  | none => none
  | some s1 =>
    let sc := s1.takeWhile Char.isDigit
    if sc = [] then none
    else
      match eatLit "nejbližších".data ((s1.dropWhile Char.isDigit).dropWhile isPySpace) with
      | none => none
      | some s4 =>
        match eatLit "poboček".data (s4.dropWhile isPySpace) with
        | none => none
        | some s6 =>
          match lazyFindAux part2Price s6.length s6 with
          | none => none
          | some (pr, s7) =>
            match lazyFindAux part3Disc s7.length s7 with
            | none => none
            | some (disc, s8) =>
              match lazyFindAux part4Validity s8.length s8 with
              | none => none
              | some (val, s9) =>
                some ({ store_count := sc, price := pr, discount := disc, validity := val }, s9)

/-- `re.finditer` of the composite pattern for one retailer. -/
def compFinditer (r : String) (t : List Char) : List RawMatch :=
  finditerAux (compMatchAt r) t.length t

/-- `re.sub` with empty replacement: drop every leftmost nonoverlapping match,
resuming after each matched region. -/
def pySubAux (m : List Char → Option (List Char)) : Nat → List Char → List Char
  | 0, s => s
  | _, [] => []
  | Nat.succ n, c :: t =>
    match m (c :: t) with
    | some rest => pySubAux m n rest
    | none => c :: pySubAux m n t

/-- Anchored `V\s*letáku.*` (no DOTALL: `.*` stops before a newline); returns the
input remaining after the match. -/
def vLetakuAt : List Char → Option (List Char)
  | 'V' :: t =>
    match eatLit "letáku".data (t.dropWhile isPySpace) with
    | none => none
    | some t2 => some (t2.dropWhile (fun c => c != '\n'))
  | _ => none

/-- Anchored `Přidat.*`. -/
def pridatAt (s : List Char) : Option (List Char) :=
  match eatLit "Přidat".data s with
  | none => none
  | some t => some (t.dropWhile (fun c => c != '\n'))

/-- The validity clean-up:
`re.sub(r'V\s*letáku.*', '', v).strip()` then `re.sub(r'Přidat.*', '', v).strip()`
then `v[:50]`. -/
def cleanValidity (v : List Char) : List Char :=
  let v1 := stripChars (pySubAux vLetakuAt v.length v)
  let v2 := stripChars (pySubAux pridatAt v1.length v1)
  v2.take 50

/-- The loop body building one offer dict from a match; the `float` conversion of
the captured price can raise ValueError, which propagates out of the parser. -/
def mkOffer (r : String) (m : RawMatch) : Except String TOffer :=
  let priceDots := m.price.map (fun c => if c = ',' then '.' else c)
  match (if m.price = [] then Except.ok none
         else match pyFloat priceDots with
              | some v => Except.ok (some v)
              | none => Except.error ("could not convert string to float: " ++ String.mk priceDots)) with
  | Except.error e => Except.error e
  | Except.ok pv =>
    Except.ok
      { retailer_name := r,
        store_count := if m.store_count = [] then none else some (natOfDigits m.store_count),
        price_text := String.mk m.price ++ " Kč / 1 kg",
        price_value := pv,
        price_unit := "1 kg",
        discount_percentage := if m.discount = [] then none else some (natOfDigits m.discount),
        validity_text := String.mk (cleanValidity m.validity) }

/-- The duplicate test of the appending loop:
`any(o["retailer_name"] == offer["retailer_name"] and o["price_value"] == offer["price_value"] for o in result["offers"])`. -/
def isDupIn (acc : List TOffer) (o : TOffer) : Bool :=
  acc.any (fun p => decide (p.retailer_name = o.retailer_name ∧ p.price_value = o.price_value))

/-- The retailer registry, in source order. -/
def retailers : List String :=
  ["Lidl", "Penny Market", "Kaufland", "Tesco", "Albert", "BILLA", "Billa"]

/-- The stream of (retailer, match) pairs in the order the nested loops visit
them. -/
def streamRaw (s : String) : List (String × RawMatch) :=
  retailers.flatMap (fun r => (compFinditer r s.data).map (fun m => (r, m)))

/-- The appending loop over the match stream: convert each match to an offer (which
can raise) and append it unless its (retailer name, price value) pair is already
present. -/
def offersLoop (acc : List TOffer) : List (String × RawMatch) → Except String (List TOffer)
  | [] => Except.ok acc
  | (r, m) :: rest =>
    match mkOffer r m with
    | Except.error e => Except.error e
    | Except.ok o =>
      if isDupIn acc o then offersLoop acc rest else offersLoop (acc ++ [o]) rest

/-- Conversion of a match stream to offers with no deduplication (errors propagate
from the first failing conversion, as in the appending loop). -/
def convMatches : List (String × RawMatch) → Except String (List TOffer)
  | [] => Except.ok []
  | (r, m) :: rest =>
    match mkOffer r m with
    | Except.error e => Except.error e
    | Except.ok o =>
      match convMatches rest with
      | Except.error e => Except.error e
      | Except.ok os => Except.ok (o :: os)

/-- The raw offers of one parser pass before the duplicate filter; used to state
which matched raw offers existed. -/
def offerStream (s : String) : Except String (List TOffer) :=
  convMatches (streamRaw s)

/-- The pure part of the appending loop: fold the converted offers into the
accumulator, skipping duplicates. -/
def dedupFold (acc : List TOffer) : List TOffer → List TOffer
  | [] => acc
  | o :: os => if isDupIn acc o then dedupFold acc os else dedupFold (acc ++ [o]) os

/-- Continuation check of the lazy title group: a literal space, a nonempty greedy
digit run, greedy whitespace, then `kg`. -/
def titleCont : List Char → Bool
  | ' ' :: t =>
    if t.takeWhile Char.isDigit = [] then false
    else (eatLit "kg".data ((t.dropWhile Char.isDigit).dropWhile isPySpace)).isSome
  | _ => false

/-- Lazy group `([^\n]+?)` of the title pattern: grow one non-newline character at
a time until the continuation matches. -/
def lazyTitle : List Char → Option (List Char)
  | [] => none
  | c :: r =>
    if c = '\n' then none
    else if titleCont r then some [c]
    else (lazyTitle r).map (fun g => c :: g)

/-- Leftmost match of `Aktuální akční slevy ([^\n]+?) \d+\s*kg`, returning the
captured group. -/
def titleScan : List Char → Option (List Char)
  | [] => none
  | c :: r =>
    match eatLit "Aktuální akční slevy ".data (c :: r) with
    | some s1 =>
      match lazyTitle s1 with
      | some g => some g
      | none => titleScan r
    | none => titleScan r

structure TextParseResult where
  product_name : Option String
  offers : List TOffer
deriving DecidableEq

/-- `parse_kupi_offers_from_text`; a ValueError from a price conversion propagates
as `Except.error`. -/
def parse_kupi_offers_from_text (s : String) : Except String TextParseResult :=
  match offersLoop [] (streamRaw s) with
  | Except.error e => Except.error e
  | Except.ok offs =>
    Except.ok
      { product_name := (titleScan s.data).map (fun g => String.mk (stripChars g)),
        offers := offs }

/-! ## DataProcessor record assembly (src/src_crawler/main.py) -/

/-- One raw offer dict as read by `process_offer` through `.get`; an absent key and
a key stored as None are conflated as `none` (the code only ever tests truthiness
or feeds the value to a sub-parser that treats both alike). -/
structure RawOffer where
  retailer_name : Option String
  retailer_url : Option String
  price_text : Option String
  discount_text : Option String
  validity_text : Option String
  flyer_url : Option String
  store_locations_url : Option String
  store_count_text : Option String
  full_text : Option String
deriving DecidableEq

structure RetailerOut where
  name : Option String
  url : Option String
deriving DecidableEq

structure StoreLocationsOut where
  url : Option String
  count : Option Nat
deriving DecidableEq

structure ProcessedOffer where
  retailer : RetailerOut
  pricing : Option PriceResult
  discount : Option DiscountResult
  validity : ValidityResult
  flyer_url : Option String
  store_locations : StoreLocationsOut
  raw_text : Option String
deriving DecidableEq

/-- `offer.get(key, "").strip() if offer.get(key) else None`. -/
def stripIfTruthy (x : Option String) : Option String :=
  match x with
  | some s => if s = "" then none else some (pyStrip s)
  | none => none

/-- `DataProcessor.process_offer`; `cur` is the reference date held by the
processor's `CzechDateParser`. -/
def process_offer (cur : Date) (o : RawOffer) : ProcessedOffer :=
  { retailer := { name := stripIfTruthy o.retailer_name, url := o.retailer_url },
    pricing := _parse_price (o.price_text.getD ""),
    discount := _parse_discount (o.discount_text.getD ""),
    validity := parse_validity_text cur (o.validity_text.getD ""),
    flyer_url := o.flyer_url,
    store_locations :=
      { url := o.store_locations_url,
        count := _parse_store_count (o.store_count_text.getD "") },
    raw_text := stripIfTruthy o.full_text }

structure CategoryEntry where
  name : Option String
  url : Option String
deriving DecidableEq

/-- The extracted-data dict as read through `.get` by `process_crawl_result`. -/
structure ExtractedDict where
  product_name : Option String
  category : List CategoryEntry
  regular_price_text : Option String
  offers : List RawOffer
deriving DecidableEq

/-- `extracted_data` is either one dict or the list wrapper produced by
JsonCssExtractionStrategy. -/
inductive ExtractedPayload where
  | dict (e : ExtractedDict)
  | list (l : List ExtractedDict)
deriving DecidableEq

structure CrawlResult where
  success : Bool
  url : Option String
  extracted_data : Option ExtractedPayload
deriving DecidableEq

structure ProductOut where
  name : Option String
  category : List CategoryEntry
  regular_price : Option PriceResult
deriving DecidableEq

structure RecordMeta where
  url : Option String
  crawled_at : String
deriving DecidableEq

structure Processed where
  product : ProductOut
  offers : List ProcessedOffer
  metadata : RecordMeta
deriving DecidableEq

/-- The truthiness test `processed_offer["retailer"]["name"]`: None and the empty
string are falsy. -/
def nameTruthy : Option String → Bool
  | none => false
  | some s => s != ""

/-- The retention test
`if processed_offer["retailer"]["name"] or processed_offer["pricing"]:` — note the
second disjunct is the truthiness of the pricing dict, which is non-None exactly
when the price text was nonempty, regardless of whether a numeric value parsed. -/
def keepOffer (p : ProcessedOffer) : Bool :=
  nameTruthy p.retailer.name || p.pricing.isSome

/-- The offer-appending loop of `process_crawl_result`. -/
def processOffers (cur : Date) : List RawOffer → List ProcessedOffer
  | [] => []
  | o :: rest =>
    let p := process_offer cur o
    if keepOffer p then p :: processOffers cur rest else processOffers cur rest

/-- A text-parser offer dict re-read through `process_offer`'s `.get` keys: the
string-valued keys it shares with structured offers; the extra numeric keys
(`store_count`, `price_value`, `price_unit`, `discount_percentage`) are never read
by `process_offer`. -/
def tofferToRaw (t : TOffer) : RawOffer :=
  { retailer_name := some t.retailer_name,
    retailer_url := none,
    price_text := some t.price_text,
    discount_text := none,
    validity_text := some t.validity_text,
    flyer_url := none,
    store_locations_url := none,
    store_count_text := none,
    full_text := none }

/-- The text-fallback branch: when structured extraction yielded no offers and raw
text is available, run the text parser and, if it found offers, substitute the fake
extracted structure (`parsed.get("product_name", ...)` always finds the key, so the
parsed product name is taken even when it is None). A ValueError from the text
parser propagates. -/
def applyTextFallback (e : ExtractedDict) : Except String ExtractedDict :=
  if e.offers = [] then
    if e.regular_price_text.getD "" = "" then Except.ok e
    else
      match parse_kupi_offers_from_text (e.regular_price_text.getD "") with
      | Except.error err => Except.error err
      | Except.ok parsed =>
        if parsed.offers = [] then Except.ok e
        else Except.ok
          { product_name := parsed.product_name,
            category := e.category,
            regular_price_text := e.regular_price_text,
            offers := parsed.offers.map tofferToRaw }
  else Except.ok e

/-- The `processed["product"]` dict. -/
def mkProduct (e : ExtractedDict) : ProductOut :=
  { name := stripIfTruthy e.product_name,
    category := e.category,
    regular_price := _parse_price (e.regular_price_text.getD "") }

/-- Processing of one (possibly fallback-substituted) extracted dict; `nowIso` is
the ambient `datetime.now().isoformat()` read stamped into the metadata. -/
def processDict (cur : Date) (nowIso : String) (cr : CrawlResult) (e : ExtractedDict) :
    Except String (Option Processed) :=
  match applyTextFallback e with
  | Except.error err => Except.error err
  | Except.ok e2 =>
    Except.ok (some
      { product := mkProduct e2,
        offers := processOffers cur e2.offers,
        metadata := { url := cr.url, crawled_at := nowIso } })

/-- `DataProcessor.process_crawl_result`; `cur` is the reference date captured by
the processor's `CzechDateParser()` at construction (a wall-clock read), `nowIso`
the wall-clock read stamped into `crawled_at`. A falsy `extracted_data` (None or an
empty list) returns None; a nonempty list wrapper is unwrapped to its head. -/
def process_crawl_result (cur : Date) (nowIso : String) (cr : CrawlResult) :
    Except String (Option Processed) :=
  if cr.success = false then Except.ok none
  else
    match cr.extracted_data with
    | none => Except.ok none
    | some (ExtractedPayload.list []) => Except.ok none
    | some (ExtractedPayload.list (e :: _)) => processDict cur nowIso cr e
    | some (ExtractedPayload.dict e) => processDict cur nowIso cr e

deriving instance DecidableEq for Except

/-! ## Concrete inputs used by the verification -/

/-- A crawl result whose structured extraction found no offers and carries no raw
text: processing succeeds and only the metadata timestamp distinguishes runs. -/
def c9input : CrawlResult :=
  { success := true,
    url := some "https://kupi.cz/sleva/maslo",
    extracted_data := some (ExtractedPayload.dict
      { product_name := some "Máslo", category := [], regular_price_text := none,
        offers := [] }) }

/-- A raw offer with an empty retailer name and a price text that contains no
numeric token. -/
def c2offer : RawOffer :=
  { retailer_name := some "", retailer_url := none, price_text := some "abc",
    discount_text := none, validity_text := none, flyer_url := none,
    store_locations_url := none, store_count_text := none, full_text := none }

/-- A structured extraction carrying exactly the offer above. -/
def c2dict : ExtractedDict :=
  { product_name := some "Máslo", category := [], regular_price_text := none,
    offers := [c2offer] }

def c2input : CrawlResult :=
  { success := true, url := some "https://kupi.cz/sleva/maslo",
    extracted_data := some (ExtractedPayload.dict c2dict) }

/-- Page text on which the composite retailer pattern captures the price group
`1,2,3`, whose float conversion raises ValueError. -/
def c4input : String :=
  "Lidl3 nejbližších poboček 1,2,3 Kč / 1 kg –30 % platí do x"

/-- Page text with two Lidl matches that agree on (retailer name, parsed price
value): the validity group of the first match stops at the capital P, so the
scanner finds a second full match afterwards. -/
def c8input : String :=
  "Lidl1 nejbližších poboček 10 Kč / 1 kg –20 % platí aP Lidl2 nejbližších poboček 10 Kč / 1 kg –20 % platí b"

/-! ## Helper lemmas -/

theorem getLast?_cons_eq_getLastD (a : String) (l : List String) :
    (a :: l).getLast? = some (l.getLastD a) := by
  induction l generalizing a with
  | nil => rfl
  | cons b t ih => rw [List.getLast?_cons_cons, ih, List.getLastD_cons]

theorem findRelative_empty : findRelative (normalizeText "") = none := by decide

/-! ## Claim theorems -/

/-- C1, counterexample: on the relative-keyword text "zítra", which contains no
directional marker at all, `parse_date_range` assigns the computed offset date to
`start_date`, not to `end_date` as the claim states. -/
theorem c1_counterexample :
    parse_date_range ⟨2025, 12, 10⟩ "zítra" = (some "2025-12-11", none) := by decide

/-- C1, amended: on a relative-keyword match the offset date goes to `end_date`
exactly when the text contains an ends/until marker ('končí' or the substring
'do'); otherwise — including when the text has no directional marker at all, and
regardless of any starts/from marker — it goes to `start_date`. -/
theorem c1_relative_assignment (cur : Date) (text : String) (k : Int)
    (h : findRelative (normalizeText text) = some k) :
    parse_date_range cur text =
      if hasUntilRel (normalizeText text)
      then (none, some (fmtDate (addDays cur k)))
      else (some (fmtDate (addDays cur k)), none) := by
  have ht : ¬ text = "" := by
    intro he
    rw [he, findRelative_empty] at h
    cases h
  simp only [parse_date_range, if_neg ht, h]

/-- C1, amended, witness at the spec's own example: "zítra končí" with reference
2025-12-10 resolves to (None, "2025-12-11"). -/
theorem c1_relative_assignment_witness :
    findRelative (normalizeText "zítra končí") = some 1 ∧
    parse_date_range ⟨2025, 12, 10⟩ "zítra končí" = (none, some "2025-12-11") :=
  ⟨by decide,
   (c1_relative_assignment ⟨2025, 12, 10⟩ "zítra končí" 1 (by decide)).trans (by decide)⟩

/-- C5: for a day.month token without an explicit year, the year assumed by the
loop body is the reference year, bumped by one exactly when the token month is
strictly below the reference month and the reference month is November or
December. -/
theorem c5_year_default (cur : Date) (d m : Nat) (h : validDate cur = true) :
    resolveToken cur ⟨d, m, none⟩ =
      (if validYMD (if m < cur.month ∧ (cur.month = 11 ∨ cur.month = 12)
                    then cur.year + 1 else cur.year) m d
       then some (fmtYMD (if m < cur.month ∧ (cur.month = 11 ∨ cur.month = 12)
                          then cur.year + 1 else cur.year) m d)
       else none) := by
  have hm : cur.month ≤ 12 := by
    simp only [validDate, validYMD, decide_eq_true_eq] at h
    exact h.2.2.2.1
  have hadj : adjYear cur ⟨d, m, none⟩ =
      (if m < cur.month ∧ (cur.month = 11 ∨ cur.month = 12)
       then cur.year + 1 else cur.year) := by
    unfold adjYear
    by_cases h1 : m < cur.month ∧ 11 ≤ cur.month
    · rw [if_pos h1, if_pos ⟨h1.1, by omega⟩]
      rfl
    · rw [if_neg h1, if_neg (by rintro ⟨ha, hb | hb⟩ <;> exact h1 ⟨ha, by omega⟩)]
      rfl
  unfold resolveToken
  rw [hadj]

/-- C5, witness: reference 2025-12-10 and token 5.1. resolve to year 2026. -/
theorem c5_year_default_witness :
    validDate ⟨2025, 12, 10⟩ = true ∧
    resolveToken ⟨2025, 12, 10⟩ ⟨5, 1, none⟩ = some "2026-01-05" :=
  ⟨by decide, (c5_year_default ⟨2025, 12, 10⟩ 5 1 (by decide)).trans (by decide)⟩

/-- C6: with no relative-keyword match, roles are assigned by valid-token count:
zero dates give (None, None); one date goes to `end_date` when an until/ends
marker is present (that test wins) or when no directional cue exists, and to
`start_date` when a from/starts marker is present; two or more dates make the
first token `start_date` and the last token `end_date`. -/
theorem c6_role_assignment (cur : Date) (text : String)
    (h : findRelative (normalizeText text) = none) :
    (extractDates cur (normalizeText text) = [] →
      parse_date_range cur text = (none, none)) ∧
    (∀ d, extractDates cur (normalizeText text) = [d] →
      parse_date_range cur text =
        if hasUntilOne (normalizeText text) then (none, some d)
        else if hasFromOne (normalizeText text) then (some d, none)
        else (none, some d)) ∧
    (∀ ds, extractDates cur (normalizeText text) = ds → 2 ≤ ds.length →
      parse_date_range cur text = (ds.head?, ds.getLast?)) := by
  by_cases ht : text = ""
  · subst ht
    have he : extractDates cur (normalizeText "") = [] := rfl
    refine ⟨fun _ => rfl, fun d hd => ?_, fun ds hds hlen => ?_⟩
    · rw [he] at hd; cases hd
    · rw [he] at hds; rw [← hds] at hlen; simp at hlen
  · refine ⟨fun h0 => ?_, fun d h1 => ?_, fun ds hds hlen => ?_⟩
    · simp only [parse_date_range, if_neg ht, h, h0]
    · simp only [parse_date_range, if_neg ht, h, h1]
    · match ds, hds, hlen with
      | d1 :: d2 :: rest, hds, _ =>
        simp only [parse_date_range, if_neg ht, h, hds]
        rw [List.head?_cons, List.getLast?_cons_cons, getLast?_cons_eq_getLastD,
          List.getLastD_cons]

/-- C6, witness at the spec's example: "13.12. - 17.12." with reference year 2025
resolves to ("2025-12-13", "2025-12-17"), and the single-date docstring example
"platí do středy 17. 12." resolves to (None, "2025-12-17"). -/
theorem c6_role_assignment_witness :
    parse_date_range ⟨2025, 12, 1⟩ "13.12. - 17.12." =
      (some "2025-12-13", some "2025-12-17") ∧
    parse_date_range ⟨2025, 12, 1⟩ "platí do středy 17. 12." =
      (none, some "2025-12-17") :=
  ⟨((c6_role_assignment ⟨2025, 12, 1⟩ "13.12. - 17.12." (by decide)).2.2
      ["2025-12-13", "2025-12-17"] (by decide) (by decide)).trans (by decide),
   ((c6_role_assignment ⟨2025, 12, 1⟩ "platí do středy 17. 12." (by decide)).2.1
      "2025-12-17" (by decide)).trans (by decide)⟩

/-- C7: a token that does not form a valid calendar date (for its assumed year)
yields no entry and its presence does not change the extracted date list — the
scan of the remaining tokens continues, and nothing is raised (the embedding stays
total). -/
theorem c7_invalid_token_skipped (cur : Date) (tok : DateToken)
    (pre post : List DateToken)
    (h : validYMD (adjYear cur tok) tok.month tok.day = false) :
    resolveToken cur tok = none ∧
    extractFromTokens cur (pre ++ tok :: post) = extractFromTokens cur (pre ++ post) := by
  have hr : resolveToken cur tok = none := by
    unfold resolveToken
    rw [h]
    rfl
  refine ⟨hr, ?_⟩
  unfold extractFromTokens
  rw [List.filterMap_append, List.filterMap_append, List.filterMap_cons, hr]

/-- C7, witness at the spec's example: a month-13 token is excluded while a valid
later token still resolves. -/
theorem c7_invalid_token_skipped_witness :
    validYMD (adjYear ⟨2025, 12, 1⟩ ⟨13, 13, none⟩) 13 13 = false ∧
    resolveToken ⟨2025, 12, 1⟩ ⟨13, 13, none⟩ = none ∧
    extractFromTokens ⟨2025, 12, 1⟩ ([] ++ ⟨13, 13, none⟩ :: [⟨17, 12, none⟩]) =
      extractFromTokens ⟨2025, 12, 1⟩ ([] ++ [⟨17, 12, none⟩]) :=
  ⟨by decide,
   (c7_invalid_token_skipped ⟨2025, 12, 1⟩ ⟨13, 13, none⟩ [] [⟨17, 12, none⟩] (by decide)).1,
   (c7_invalid_token_skipped ⟨2025, 12, 1⟩ ⟨13, 13, none⟩ [] [⟨17, 12, none⟩] (by decide)).2⟩

/-- C9, counterexample: with no explicitly supplied reference date the parser falls
back to the ambient clock and its output varies between runs on identical input;
likewise `process_crawl_result` stamps the ambient clock reading into
`metadata.crawled_at`, so two runs on the identical crawl result differ. -/
theorem c9_counterexample :
    parse_date_range (czechParserInit none ⟨2025, 12, 10⟩) "zítra" ≠
      parse_date_range (czechParserInit none ⟨2025, 12, 11⟩) "zítra" ∧
    process_crawl_result ⟨2025, 12, 10⟩ "2025-12-10T12:00:00" c9input ≠
      process_crawl_result ⟨2025, 12, 10⟩ "2025-12-11T09:30:00" c9input := by
  exact ⟨by decide, by decide⟩

/-- C9, amended: date resolution is deterministic in (text, reference date)
whenever the reference date is explicitly supplied to the parser constructor — the
ambient clock value is then ignored; but the construction in `DataProcessor`
supplies none, and the `crawled_at` stamp is always an ambient clock read. -/
theorem c9_reference_date_determinism (d now1 now2 : Date) (text : String) :
    parse_date_range (czechParserInit (some d) now1) text =
      parse_date_range (czechParserInit (some d) now2) text := rfl

/-- C10: the November/December rollover is applied even to tokens carrying an
explicit four-digit year: when the token month is strictly below the reference
month and the reference month is November or December, the resolved year is the
explicit year plus one. -/
theorem c10_rollover_explicit_year (cur : Date) (d m y : Nat)
    (h1 : m < cur.month) (h2 : 11 ≤ cur.month) :
    resolveToken cur ⟨d, m, some y⟩ =
      if validYMD (y + 1) m d then some (fmtYMD (y + 1) m d) else none := by
  have hadj : adjYear cur ⟨d, m, some y⟩ = y + 1 := by
    unfold adjYear
    rw [if_pos ⟨h1, h2⟩]
    rfl
  unfold resolveToken
  rw [hadj]

/-- C10, witness: the explicitly written year 2025 in token 7.1.2025 is advanced
to 2026 under a December reference date. -/
theorem c10_rollover_explicit_year_witness :
    (1 : Nat) < 12 ∧ (11 : Nat) ≤ 12 ∧
    resolveToken ⟨2025, 12, 1⟩ ⟨7, 1, some 2025⟩ = some "2026-01-07" :=
  ⟨by decide, by decide,
   (c10_rollover_explicit_year ⟨2025, 12, 1⟩ 7 1 2025 (by decide) (by decide)).trans
     (by decide)⟩

theorem processOffers_eq_filter (cur : Date) (l : List RawOffer) :
    processOffers cur l = (l.map (process_offer cur)).filter keepOffer := by
  induction l with
  | nil => rfl
  | cons o rest ih =>
    simp only [processOffers, List.map_cons, List.filter_cons]
    by_cases hk : keepOffer (process_offer cur o) = true
    · rw [if_pos hk, if_pos hk, ih]
    · rw [if_neg hk, if_neg hk, ih]

/-- C2, counterexample: a raw offer with empty retailer name and the unparsable
price text "abc" (value = None) is retained in the assembled record — the code
tests truthiness of the pricing dict, which is non-None for any nonempty price
text. -/
theorem c2_counterexample :
    (process_crawl_result ⟨2025, 12, 1⟩ "2025-12-01T00:00:00" c2input).map
        (Option.map (fun p =>
          p.offers.map (fun o => (o.retailer.name, o.pricing.map PriceResult.value)))) =
      Except.ok (some [(none, some none)]) := by decide

/-- C2, amended: on the structured path an offer is retained exactly when its
stripped retailer name is nonempty or its pricing dict is non-null, and the
pricing dict is null exactly when the price text is empty or missing — so an
offer with empty retailer name and nonempty unparsable price text is retained
with `value = None`. -/
theorem c2_retention (cur : Date) (nowIso : String) (cr : CrawlResult)
    (e : ExtractedDict)
    (h1 : cr.success = true)
    (h2 : cr.extracted_data = some (ExtractedPayload.dict e))
    (h3 : e.offers ≠ []) :
    process_crawl_result cur nowIso cr =
      Except.ok (some
        { product := mkProduct e,
          offers := (e.offers.map (process_offer cur)).filter keepOffer,
          metadata := { url := cr.url, crawled_at := nowIso } }) ∧
    ∀ o : RawOffer, ((process_offer cur o).pricing = none ↔ o.price_text.getD "" = "") := by
  constructor
  · have hfb : applyTextFallback e = Except.ok e := by
      unfold applyTextFallback
      rw [if_neg h3]
    simp only [process_crawl_result, h1, h2, processDict, hfb,
      processOffers_eq_filter]
    rfl
  · intro o
    simp only [process_offer, _parse_price]
    by_cases hp : o.price_text.getD "" = ""
    · simp [hp]
    · simp [hp]

/-- C2, amended, witness: the assembled record for the concrete crawl result keeps
the empty-name unparsable-price offer, whose pricing is non-null while its price
text "abc" is nonempty. -/
theorem c2_retention_witness :
    process_crawl_result ⟨2025, 12, 1⟩ "2025-12-01T00:00:00" c2input =
      Except.ok (some
        { product := mkProduct c2dict,
          offers := (c2dict.offers.map (process_offer ⟨2025, 12, 1⟩)).filter keepOffer,
          metadata := { url := c2input.url, crawled_at := "2025-12-01T00:00:00" } }) ∧
    ((process_offer ⟨2025, 12, 1⟩ c2offer).pricing = none ↔
      c2offer.price_text.getD "" = "") :=
  ⟨(c2_retention ⟨2025, 12, 1⟩ "2025-12-01T00:00:00" c2input c2dict rfl rfl
      (by decide)).1,
   (c2_retention ⟨2025, 12, 1⟩ "2025-12-01T00:00:00" c2input c2dict rfl rfl
      (by decide)).2 c2offer⟩

/-- C3: on the price text "17,90 Kč / 1 kg" the sub-parser returns the comma
value 17.90 and currency CZK as specified, but the captured unit is only "1" —
the lazy group of `/\s*(.+?)(?:\s|$)` stops at the first whitespace, truncating
the documented unit "1 kg". -/
theorem c3_unit_truncated :
    _parse_price "17,90 Kč / 1 kg" =
      some { text := "17,90 Kč / 1 kg", value := some ((179 : ℚ) / 10),
             currency := some "CZK", unit := some "1" } := by
  have h : _parse_price "17,90 Kč / 1 kg" =
      some { text := "17,90 Kč / 1 kg",
             value := some (((17 : ℕ) : ℚ) + ((90 : ℕ) : ℚ) / ((10 : ℚ) ^ (2 : ℕ))),
             currency := some "CZK", unit := some "1" } := by rfl
  have hval : (((17 : ℕ) : ℚ) + ((90 : ℕ) : ℚ) / ((10 : ℚ) ^ (2 : ℕ))) = (179 : ℚ) / 10 := by
    norm_num
  rw [h, hval]

/-- C4: the fallback parser is not total — on this page text the composite
pattern captures the price group "1,2,3" and `float("1.2.3")` raises ValueError,
which propagates out of `parse_kupi_offers_from_text`. -/
theorem c4_text_fallback_raises :
    parse_kupi_offers_from_text c4input =
      Except.error "could not convert string to float: 1.2.3" := by decide

/-- The deduplication key of the text parser: the pair (retailer name, parsed
price value). -/
def keyPred (n : String) (v : Option ℚ) (o : TOffer) : Bool :=
  decide (o.retailer_name = n ∧ o.price_value = v)

theorem isDupIn_eq_any_keyPred (acc : List TOffer) (o : TOffer) (n : String)
    (v : Option ℚ) (h : keyPred n v o = true) :
    isDupIn acc o = acc.any (keyPred n v) := by
  unfold isDupIn
  congr 1
  funext p
  simp only [keyPred, decide_eq_true_eq] at h
  rw [keyPred, decide_eq_decide, h.1, h.2]

theorem offersLoop_eq_dedup (l : List (String × RawMatch)) :
    ∀ acc, offersLoop acc l = Except.map (fun os => dedupFold acc os) (convMatches l) := by
  induction l with
  | nil => intro acc; rfl
  | cons p rest ih =>
    intro acc
    obtain ⟨r, m⟩ := p
    simp only [offersLoop, convMatches]
    cases hmk : mkOffer r m with
    | error e => rfl
    | ok o =>
      dsimp only
      by_cases hdup : isDupIn acc o = true
      · rw [if_pos hdup, ih acc]
        cases hc : convMatches rest with
        | error e => rfl
        | ok os => simp [Except.map, dedupFold, hdup]
      · rw [if_neg hdup, ih (acc ++ [o])]
        rw [Bool.not_eq_true] at hdup
        cases hc : convMatches rest with
        | error e => rfl
        | ok os => simp [Except.map, dedupFold, hdup]

theorem dedupFold_filter (n : String) (v : Option ℚ) (os : List TOffer) :
    ∀ acc : List TOffer,
      (dedupFold acc os).filter (keyPred n v) =
        acc.filter (keyPred n v) ++
          (if acc.any (keyPred n v) = true then []
           else ((os.find? (keyPred n v)).toList)) := by
  induction os with
  | nil =>
    intro acc
    simp [dedupFold]
  | cons o os ih =>
    intro acc
    simp only [dedupFold]
    by_cases hkey : keyPred n v o = true
    · by_cases hdup : isDupIn acc o = true
      · have hany : acc.any (keyPred n v) = true := by
          rw [← isDupIn_eq_any_keyPred acc o n v hkey]
          exact hdup
        rw [if_pos hdup, ih acc, if_pos hany, if_pos hany]
      · have hany : acc.any (keyPred n v) = false := by
          rw [← isDupIn_eq_any_keyPred acc o n v hkey]
          exact Bool.not_eq_true _ |>.mp hdup
        rw [if_neg hdup, ih (acc ++ [o])]
        have hany2 : (acc ++ [o]).any (keyPred n v) = true := by
          simp [List.any_append, hkey]
        rw [if_pos hany2, if_neg (by rw [hany]; exact Bool.false_ne_true)]
        simp [List.filter_append, hkey, List.find?_cons_of_pos _ hkey]
    · have hkey' : keyPred n v o = false := Bool.not_eq_true _ |>.mp hkey
      have hfind : (o :: os).find? (keyPred n v) = os.find? (keyPred n v) :=
        List.find?_cons_of_neg _ (by rw [hkey']; exact Bool.false_ne_true)
      by_cases hdup : isDupIn acc o = true
      · rw [if_pos hdup, ih acc, hfind]
      · rw [if_neg hdup, ih (acc ++ [o]), hfind]
        simp [List.filter_append, List.any_append, hkey']

/-- C8: within one parser pass, matched raw offers identical on (retailer name,
parsed price value) collapse to exactly one retained offer: the output offers
filtered on any such key are exactly the first offer of the pre-deduplication
match stream with that key — the earlier match is kept, every later one is
discarded. -/
theorem c8_dedup_first_kept (s : String) {os : List TOffer} {r : TextParseResult}
    (h1 : offerStream s = Except.ok os)
    (h2 : parse_kupi_offers_from_text s = Except.ok r)
    (n : String) (v : Option ℚ) :
    r.offers.filter (keyPred n v) = ((os.find? (keyPred n v)).toList) := by
  have hloop := offersLoop_eq_dedup (streamRaw s) []
  unfold offerStream at h1
  rw [h1] at hloop
  unfold parse_kupi_offers_from_text at h2
  rw [hloop] at h2
  simp only [Except.map] at h2
  have hr : r.offers = dedupFold [] os := by
    cases h2
    rfl
  rw [hr, dedupFold_filter n v os []]
  rfl

/-- C8, witness: on the two-match page text the stream has two Lidl offers with
equal keys, the retained list has exactly one, and the filtered output equals the
first stream element with the key ("Lidl", 10). -/
theorem c8_dedup_first_kept_witness :
    ((offerStream c8input).map List.length = Except.ok 2 ∧
     (parse_kupi_offers_from_text c8input).map (fun r => r.offers.length) = Except.ok 1) ∧
    (parse_kupi_offers_from_text c8input).map
        (fun r => r.offers.filter (keyPred "Lidl" (some 10))) =
      (offerStream c8input).map
        (fun os => (os.find? (keyPred "Lidl" (some 10))).toList) := by
  constructor
  · exact ⟨by decide, by decide⟩
  · obtain ⟨os, hos⟩ : ∃ os, offerStream c8input = Except.ok os := ⟨_, rfl⟩
    obtain ⟨r, hr⟩ : ∃ r, parse_kupi_offers_from_text c8input = Except.ok r := ⟨_, rfl⟩
    rw [hos, hr]
    simp only [Except.map]
    exact congrArg Except.ok (c8_dedup_first_kept c8input hos hr "Lidl" (some 10))
